import Mathlib

/-!
Shallow embedding of the healthcare-referral agent's engineering core
(`src/App/tools.py` and `src/config.py`).

Network I/O is modelled by oracles.  For the retrying HTTP client methods,
an oracle `resp : Nat → HttpResp α` gives the outcome of the HTTP request
issued on each attempt index, and each client method's
`for attempt in range(max_retries)` loop is embedded as fuel-based
recursion (`retryAux`), with the invariant `attempt + fuel = maxRetries`
at every reachable call.  Wall-clock sleeping (`asyncio.sleep`) is
recorded in a trace (the list of sleep durations, in seconds, in order)
rather than performed.  Raising a domain exception is modelled by the
`RetryResult.domainError` constructor, tagged with which exception class
(`ProviderVerificationError` or `PracticeFusionError`) the method raises.
-/
/-- Outcome of a single HTTP request attempt, as seen by the retry loops in
`tools.py`: a successful response carrying parsed payload `α`
(`response.json()`), an HTTP error status (`httpx.HTTPStatusError`, with the
response detail text used by `create_appointment`'s error message), or a
connection-level failure (`httpx.RequestError`, with its message text). -/
inductive HttpResp (α : Type) where
  | ok (data : α)
  | httpError (status : Nat) (detail : String)
  | connError (msg : String)
deriving DecidableEq

/-- Which Python exception class a client method raises:
`ProviderVerificationError` (NPPES client) or `PracticeFusionError`
(Practice Fusion client). -/
inductive ExcKind where
  | providerVerification
  | practiceFusion
deriving DecidableEq

/-- Result of running a client method to completion: the returned payload,
or the raised domain exception with its message. -/
inductive RetryResult (α : Type) where
  | success (data : α)
  | domainError (exc : ExcKind) (msg : String)
deriving DecidableEq

/-- Trace of one run of a retry loop: its result, the total number of HTTP
attempts issued, and the sleep durations (seconds) performed, in order. -/
structure RetryTrace (α : Type) where
  result : RetryResult α
  attempts : Nat
  sleeps : List Nat
deriving DecidableEq

/-- Per-method error-message configuration, read off the `raise`
statements of each client method in `tools.py`. -/
structure RetryCfg where
  exc : ExcKind
  httpMsg : Nat → String → String
  connMsg : String → String
  maxMsg : String

/-- Fuel-based embedding of the shared retry-loop skeleton
`for attempt in range(max_retries): ...` of every client method in
`tools.py`: a successful response returns; HTTP status 429 sleeps
`2 ** attempt` seconds and continues; any other HTTP error raises the
domain exception immediately; a connection error on the last attempt
(`attempt == max_retries - 1`) raises, otherwise it sleeps
`1 * (attempt + 1)` seconds and continues; if the loop exhausts all
attempts, the method raises the `Max retries exceeded` domain exception. -/
def retryAux (cfg : RetryCfg) (resp : Nat → HttpResp α) (maxRetries : Nat) :
    Nat → Nat → RetryTrace α
  | _, 0 => ⟨.domainError cfg.exc cfg.maxMsg, 0, []⟩
  | attempt, fuel + 1 =>
    match resp attempt with
    | .ok d => ⟨.success d, 1, []⟩
    | .httpError status detail =>
      if status = 429 then
        let t := retryAux cfg resp maxRetries (attempt + 1) fuel
        ⟨t.result, t.attempts + 1, 2 ^ attempt :: t.sleeps⟩
      else
        ⟨.domainError cfg.exc (cfg.httpMsg status detail), 1, []⟩
    | .connError e =>
      if attempt = maxRetries - 1 then
        ⟨.domainError cfg.exc (cfg.connMsg e), 1, []⟩
      else
        let t := retryAux cfg resp maxRetries (attempt + 1) fuel
        ⟨t.result, t.attempts + 1, (attempt + 1) :: t.sleeps⟩

/-- Run a client method's retry loop from attempt 0 with full fuel. -/
def retryLoop (cfg : RetryCfg) (maxRetries : Nat) (resp : Nat → HttpResp α) :
    RetryTrace α :=
  retryAux cfg resp maxRetries 0 maxRetries

/-- `NPPES_MAX_RETRIES = 3` from `src/config.py`. -/
def NPPES_MAX_RETRIES : Nat := 3

/-- `PRACTICE_FUSION_MAX_RETRIES = 3` from `src/config.py`. -/
def PRACTICE_FUSION_MAX_RETRIES : Nat := 3

/-- Error messages of `NPPESClient.search_providers`. -/
def searchProvidersCfg : RetryCfg where
  exc := .providerVerification
  httpMsg := fun status _ => "NPPES API error: " ++ toString status
  connMsg := fun e => "Unable to connect to NPPES API: " ++ e
  maxMsg := "Max retries exceeded"

/-- `NPPESClient.search_providers`: the NPPES registry search request with
its retry loop. -/
def search_providers (resp : Nat → HttpResp α) : RetryTrace α :=
  retryLoop searchProvidersCfg NPPES_MAX_RETRIES resp

/-- Error messages of `PracticeFusionClient.get_access_token`. -/
def getAccessTokenCfg : RetryCfg where
  exc := .practiceFusion
  httpMsg := fun status _ => "Token API error: " ++ toString status
  connMsg := fun e => "Unable to connect to Practice Fusion API: " ++ e
  maxMsg := "Max retries exceeded for token refresh"

/-- `PracticeFusionClient.get_access_token`: the token-refresh request with
its retry loop.  The payload oracle gives the optional `access_token`
field of the JSON response; a successful response without an access token
raises `PracticeFusionError("No access token in response")`, which
propagates out of the loop (it is neither an `HTTPStatusError` nor a
`RequestError`, so no `except` clause catches it). -/
def get_access_token (resp : Nat → HttpResp (Option String)) : RetryTrace String :=
  let t := retryLoop getAccessTokenCfg PRACTICE_FUSION_MAX_RETRIES resp
  { result :=
      match t.result with
      | .success (some tok) => .success tok
      | .success none => .domainError .practiceFusion "No access token in response"
      | .domainError k m => .domainError k m
    attempts := t.attempts
    sleeps := t.sleeps }

/-- Error messages of `PracticeFusionClient.create_patient`. -/
def createPatientCfg : RetryCfg where
  exc := .practiceFusion
  httpMsg := fun status _ => "Patient creation API error: " ++ toString status
  connMsg := fun e => "Unable to connect to Practice Fusion API: " ++ e
  maxMsg := "Max retries exceeded for patient creation"

/-- `PracticeFusionClient.create_patient`: the patient-creation POST with
its retry loop (its access-token prelude is the separate
`get_access_token` method, modelled above with its own bound). -/
def create_patient (resp : Nat → HttpResp α) : RetryTrace α :=
  retryLoop createPatientCfg PRACTICE_FUSION_MAX_RETRIES resp

/-- Error messages of `PracticeFusionClient.get_users`. -/
def getUsersCfg : RetryCfg where
  exc := .practiceFusion
  httpMsg := fun status _ => "Users API error: " ++ toString status
  connMsg := fun e => "Unable to connect to Practice Fusion API: " ++ e
  maxMsg := "Max retries exceeded for users fetch"

/-- `PracticeFusionClient.get_users`: the users fetch with its retry loop. -/
def get_users (resp : Nat → HttpResp α) : RetryTrace α :=
  retryLoop getUsersCfg PRACTICE_FUSION_MAX_RETRIES resp

/-- Error messages of `PracticeFusionClient.get_facilities`. -/
def getFacilitiesCfg : RetryCfg where
  exc := .practiceFusion
  httpMsg := fun status _ => "Facilities API error: " ++ toString status
  connMsg := fun e => "Unable to connect to Practice Fusion API: " ++ e
  maxMsg := "Max retries exceeded for facilities fetch"

/-- `PracticeFusionClient.get_facilities`: the facilities fetch with its
retry loop. -/
def get_facilities (resp : Nat → HttpResp α) : RetryTrace α :=
  retryLoop getFacilitiesCfg PRACTICE_FUSION_MAX_RETRIES resp

/-- Error messages of `PracticeFusionClient.check_calendar_availability`. -/
def checkCalendarCfg : RetryCfg where
  exc := .practiceFusion
  httpMsg := fun status _ => "Calendar API error: " ++ toString status
  connMsg := fun e => "Unable to connect to Practice Fusion API: " ++ e
  maxMsg := "Max retries exceeded for calendar query"

/-- `PracticeFusionClient.check_calendar_availability`: the calendar query
with its retry loop. -/
def check_calendar_availability (resp : Nat → HttpResp α) : RetryTrace α :=
  retryLoop checkCalendarCfg PRACTICE_FUSION_MAX_RETRIES resp

/-- Error messages of `PracticeFusionClient.create_appointment`.  Its
non-429 HTTP error message appends the extracted response detail text. -/
def createAppointmentCfg : RetryCfg where
  exc := .practiceFusion
  httpMsg := fun status detail =>
    "Appointment creation API error: " ++ toString status ++ detail
  connMsg := fun e => "Unable to connect to Practice Fusion API: " ++ e
  maxMsg := "Max retries exceeded for appointment creation"

/-- `PracticeFusionClient.create_appointment`: the appointment-creation
POST with its retry loop. -/
def create_appointment (resp : Nat → HttpResp α) : RetryTrace α :=
  retryLoop createAppointmentCfg PRACTICE_FUSION_MAX_RETRIES resp

/-- Whether a response is an HTTP 429 (rate-limit) error. -/
def HttpResp.is429 : HttpResp α → Bool
  | .httpError status _ => status == 429
  | _ => false

/-- Whether a response is a connection-level error. -/
def HttpResp.isConnErr : HttpResp α → Bool
  | .connError _ => true
  | _ => false

/-- Whether the response on attempt `i` makes the loop (with `m` total
attempts) sleep and continue to attempt `i + 1`: an HTTP 429, or a
connection error that is not on the last attempt. -/
def retryContinues (m : Nat) (r : HttpResp α) (i : Nat) : Bool :=
  r.is429 || (r.isConnErr && decide (i ≠ m - 1))

/-- The sleep duration the loop performs after a retried attempt `i`:
`2 ^ i` seconds after a 429, `i + 1` seconds after a connection error. -/
def sleepOf (resp : Nat → HttpResp α) (i : Nat) : Nat :=
  if (resp i).is429 then 2 ^ i else i + 1

/-!
Appointment scheduler (`_schedule_appointment_async` in `tools.py`).

Time is modelled in minutes.  Local Eastern time is modelled as the
fixed-offset zone the code itself falls back to when `pytz` is missing
(EST, UTC-5); a calendar day is an absolute day number whose weekday is
`day % 7` with day 0 a Monday, matching Python's `date.weekday()`
convention (Monday = 0, ..., Sunday = 6).  `datetime.now(eastern)` is
represented by the day number `todayDay` of the current Eastern date (the
time of day is irrelevant: every candidate is built with
`replace(hour=h, minute=0, second=0, microsecond=0)`).  Calendar events
arrive from the API with their `startDateTimeUtc` already parsed to an
instant (UTC minutes); their `duration` string is parsed by the code
itself and is modelled verbatim, including the `int()` failure mode
(an unparseable duration raises, which the scheduler's outer
`except Exception` turns into an error result).  The two network
dependencies are oracles: `query` gives the calendar events returned for
a slot's conflict-check window (`none` models a `PracticeFusionError`
from `check_calendar_availability`, which the loop catches and skips the
slot), and `create` gives the result of `create_appointment`. -/
/-- Calendar event as consumed by the scheduler's conflict check:
`startDateTimeUtc` (parsed instant, UTC minutes), the `isCancelled` flag
(`event.get('isCancelled', False)`), and the optional `duration` string
(`event.get('duration', '01:00:00')` supplies the default). -/
structure CalEvent where
  startDateTimeUtc : Int
  isCancelled : Bool
  duration : Option String
deriving DecidableEq

/-- Python's `str.split(':')`: split at every colon, keeping empty
pieces (the result is never the empty list). -/
def splitOnColon : List Char → List (List Char)
  | [] => [[]]
  | c :: cs =>
    if c = ':' then [] :: splitOnColon cs
    else
      match splitOnColon cs with
      | [] => [[c]]
      | w :: ws => (c :: w) :: ws

/-- Helper for `digitsToNat?`: fold decimal digits into an accumulator,
failing on any non-digit character. -/
def digitsToNatAux : List Char → Nat → Option Nat
  | [], acc => some acc
  | c :: cs, acc =>
    if c.isDigit then digitsToNatAux cs (acc * 10 + (c.toNat - 48)) else none

/-- Python's `int()` on a piece of a duration string, modelled as a plain
decimal-digit parse: `none` models `int()` raising `ValueError`. -/
def digitsToNat? : List Char → Option Nat
  | [] => none
  | l => digitsToNatAux l 0

/-- Parse a duration string as the scheduler does:
`duration_parts = duration_str.split(':')`,
`duration_hours = int(duration_parts[0])`,
`duration_minutes = int(duration_parts[1]) if len(duration_parts) > 1 else 0`;
seconds are ignored.  `none` models `int()` raising `ValueError`. -/
def parseDurationMinutes (s : String) : Option Nat :=
  match splitOnColon s.toList with
  | [] => none
  | h :: rest =>
    match digitsToNat? h with
    | none => none
    | some hours =>
      match rest with
      | [] => some (hours * 60)
      | m :: _ =>
        match digitsToNat? m with
        | none => none
        | some minutes => some (hours * 60 + minutes)

/-- Duration of an event in minutes, with the `'01:00:00'` default when
the `duration` field is absent. -/
def eventDurationMin (e : CalEvent) : Option Nat :=
  parseDurationMinutes (e.duration.getD "01:00:00")

/-- The scheduler's per-slot conflict loop over the returned events:
cancelled events are skipped before their duration is parsed; the slot
conflicts when `slot_start < event_end and slot_start + 1h > event_start`
(the loop breaks at the first such event); `none` models an unparseable
duration raising out of the loop. -/
def slotConflicts (slotStartUtc : Int) : List CalEvent → Option Bool
  | [] => some false
  | e :: rest =>
    if e.isCancelled then slotConflicts slotStartUtc rest
    else
      match eventDurationMin e with
      | none => none
      | some d =>
        if slotStartUtc < e.startDateTimeUtc + (d : Int) ∧
            slotStartUtc + 60 > e.startDateTimeUtc then some true
        else slotConflicts slotStartUtc rest

/-- A candidate appointment slot: the absolute Eastern day number and the
Eastern wall-clock hour. -/
structure Slot where
  day : Nat
  hour : Nat
deriving DecidableEq

/-- Start of a slot in local (Eastern) minutes. -/
def slotStartMin (s : Slot) : Nat := s.day * 1440 + s.hour * 60

/-- Start of a slot as a UTC instant in minutes (`astimezone(utc)` is
instant-preserving; EST is UTC-5, so UTC = local + 300 minutes). -/
def slotStartUtcMin (s : Slot) : Int := (slotStartMin s : Int) + 300

/-- The scheduler's candidate generation: a nested loop over
`days_ahead in range(1, 15)` (skipping weekends,
`candidate_date.weekday() >= 5`) and `hour in range(9, 17)`. -/
def genSlots (todayDay : Nat) : List Slot :=
  (List.range' 1 14).flatMap fun daysAhead =>
    if (todayDay + daysAhead) % 7 ≥ 5 then []
    else (List.range' 9 8).map fun hour => ⟨todayDay + daysAhead, hour⟩

/-- A slot passes the conflict check: the calendar query succeeds and the
conflict loop reports no overlap. -/
def passes (query : Slot → Option (List CalEvent)) (s : Slot) : Prop :=
  ∃ evs, query s = some evs ∧ slotConflicts (slotStartUtcMin s) evs = some false

/-- The scheduler's slot-selection loop: for each candidate in order, run
the calendar query (a `PracticeFusionError` — `query s = none` — is caught
and the slot skipped with `continue`); an unparseable event duration
raises out of the whole function (`Except.error` with the generic message
of the outer `except Exception` handler); the first slot whose conflict
check reports no overlap is selected. -/
def findSlot (query : Slot → Option (List CalEvent)) :
    List Slot → Except String (Option Slot)
  | [] => .ok none
  | s :: rest =>
    match query s with
    | none => findSlot query rest
    | some evs =>
      match slotConflicts (slotStartUtcMin s) evs with
      | none => .error "An unexpected error occurred during appointment scheduling"
      | some true => findSlot query rest
      | some false => .ok (some s)

/-- The fields of the scheduler's success dictionary that this embedding
tracks (the selected slot, the `eventId` of the created appointment, the
echoed patient fields, and the fixed `"01:00:00"` duration). -/
structure ApptDetails where
  slot : Slot
  appointment_id : String
  patient_name : String
  patient_dob : String
  patient_phone : String
  patient_practice_guid : String
  duration : String
deriving DecidableEq

/-- Result of `_schedule_appointment_async`: the success dictionary or a
`success = False` dictionary carrying an error message. -/
inductive SchedOutcome where
  | success (d : ApptDetails)
  | failure (error : String)
deriving DecidableEq

/-- The scheduler body after input validation: generate candidates, select
the first conflict-free slot, then create the appointment (`create s`
gives `create_appointment`'s outcome for the selected slot; its
`PracticeFusionError` is caught by the handler that returns the
`Appointment scheduling API error: ...` dictionary). -/
def scheduleCore (query : Slot → Option (List CalEvent))
    (create : Slot → Except String String) (todayDay : Nat)
    (patient_name patient_dob patient_phone patient_practice_guid : String) :
    SchedOutcome :=
  if (genSlots todayDay).isEmpty then
    .failure "No available slots found in the next 2 weeks"
  else
    match findSlot query (genSlots todayDay) with
    | .error msg => .failure msg
    | .ok none => .failure "No available slots found without conflicts"
    | .ok (some s) =>
      match create s with
      | .error e => .failure ("Appointment scheduling API error: " ++ e)
      | .ok eventId =>
        .success ⟨s, eventId, patient_name, patient_dob, patient_phone,
          patient_practice_guid, "01:00:00"⟩

/-- `_schedule_appointment_async`: validates the required inputs (empty
strings are falsy) and runs the scheduler body.  `preferred_date` is
bound but never read by the function body. -/
def _schedule_appointment_async (query : Slot → Option (List CalEvent))
    (create : Slot → Except String String) (todayDay : Nat)
    (patient_name patient_dob patient_phone patient_practice_guid : String)
    (preferred_date : Option String) : SchedOutcome :=
  if patient_name = "" ∨ patient_dob = "" ∨ patient_phone = "" ∨
      patient_practice_guid = "" then
    .failure "Patient name, date of birth, phone number, and patient practice GUID are required"
  else
    scheduleCore query create todayDay patient_name patient_dob patient_phone
      patient_practice_guid

/-- The `schedule_appointment` tool: passes its arguments through to
`_schedule_appointment_async` (the extra `patient_mrn` argument is not
forwarded; JSON serialisation of the result dictionary is not modelled). -/
def schedule_appointment (query : Slot → Option (List CalEvent))
    (create : Slot → Except String String) (todayDay : Nat)
    (patient_name patient_dob patient_phone patient_practice_guid : String)
    (preferred_date : Option String) (patient_mrn : Option String) :
    SchedOutcome :=
  _schedule_appointment_async query create todayDay patient_name patient_dob
    patient_phone patient_practice_guid preferred_date

/-!
Provider verification (`_verify_provider_async` in `tools.py`).

The NPPES response data is modelled with the fields the code reads, with
the `dict.get(key, "")` defaults folded into total string fields.  The
network call is an oracle `search : SearchOutcome` giving the outcome of
`NPPESClient.search_providers`: the parsed data, a raised
`ProviderVerificationError`, or any other exception (the code's
`except Exception` branch).  The function returns a result dictionary
together with a flag recording whether the NPPES request was issued,
which makes the before-any-network-request part of the claim statable. -/
/-- Fields of the `basic` sub-dictionary of an NPPES result that the code
reads (missing keys default to `""`; the field named `name_prefix` in the
API is called `namePfx` here). -/
structure NPPESBasic where
  first_name : String
  middle_name : String
  last_name : String
  credential : String
  namePfx : String
  status : String
  enumeration_date : String
deriving DecidableEq

/-- An address entry of an NPPES result. -/
structure NPPESAddress where
  address_purpose : String
  city : String
  state : String
deriving DecidableEq

/-- One NPPES provider result: the NPI (`number`), the `basic`
sub-dictionary and the address list. -/
structure NPPESProvider where
  number : String
  basic : NPPESBasic
  addresses : List NPPESAddress
deriving DecidableEq

/-- The parsed NPPES search response. -/
structure NPPESData where
  result_count : Nat
  results : List NPPESProvider
deriving DecidableEq

/-- The location-address preference of the code: the first address whose
`address_purpose` is `"LOCATION"`, else the first address, else none. -/
def locationAddress (addrs : List NPPESAddress) : Option NPPESAddress :=
  match addrs.find? (fun a => a.address_purpose == "LOCATION") with
  | some a => some a
  | none => addrs.head?

/-- The provider-info dictionary built per result. -/
structure ProviderInfo where
  npi : String
  first_name : String
  middle_name : String
  last_name : String
  credential : String
  namePfx : String
  status : String
  enumeration_date : String
  city : String
  state : String
  matches_npi : Option Bool
deriving DecidableEq

/-- Build one provider-info entry exactly as the extraction loop does:
`status` is `"Active"` iff `basic.status == "A"`, the city/state come
from the preferred location address (else `""`), and `matches_npi` is
`provider_npi == npi.strip()` when an `npi` argument was given, else
`None`. -/
def buildProviderInfo (npi : Option String) (p : NPPESProvider) : ProviderInfo where
  npi := p.number
  first_name := p.basic.first_name
  middle_name := p.basic.middle_name
  last_name := p.basic.last_name
  credential := p.basic.credential
  namePfx := p.basic.namePfx
  status := if p.basic.status = "A" then "Active" else "Inactive"
  enumeration_date := p.basic.enumeration_date
  city := ((locationAddress p.addresses).map (fun a => a.city)).getD ""
  state := ((locationAddress p.addresses).map (fun a => a.state)).getD ""
  matches_npi := npi.map (fun n => p.number == n.trim)

/-- Outcome of the `NPPESClient.search_providers` call as seen by
`_verify_provider_async`: parsed data, a raised
`ProviderVerificationError` (with `str(e)`), or any other exception. -/
inductive SearchOutcome where
  | ok (data : NPPESData)
  | pvError (msg : String)
  | otherException (msg : String)
deriving DecidableEq

/-- Result dictionary of `_verify_provider_async`: the `success = True`
dictionary (result count and extracted providers) or a `success = False`
dictionary with an error string. -/
inductive VerifyResult where
  | ok (result_count : Nat) (providers : List ProviderInfo)
  | failure (error : String)
deriving DecidableEq

/-- `_verify_provider_async`: empty `first_name` or `last_name` returns
the validation failure before any network request; otherwise the NPPES
search runs and a `ProviderVerificationError` becomes a failure carrying
`str(e)`, any other exception becomes the generic failure message, and
success extracts the provider list.  The second component records whether
the NPPES request was issued. -/
def _verify_provider_async (search : SearchOutcome)
    (first_name last_name : String) (npi : Option String) :
    VerifyResult × Bool :=
  if first_name = "" ∨ last_name = "" then
    (.failure "Both first name and last name are required", false)
  else
    match search with
    | .ok data =>
      (.ok data.result_count (data.results.map (buildProviderInfo npi)), true)
    | .pvError e => (.failure e, true)
    | .otherException _ =>
      (.failure "An unexpected error occurred during provider verification", true)

/-!
Insurance verification (`verify_insurance_coverage` in `tools.py`), a
pure mock: no network dependency, so the embedding is a plain function.
Python's substring test `accepted in provider_lower` is modelled as list
infix on the character lists; `.lower().strip()` is `toLower` then
`trim`. -/
/-- The fixed accepted-insurer substrings of `verify_insurance_coverage`. -/
def accepted_insurers : List String :=
  ["united healthcare", "united", "aetna", "cigna",
   "blue cross blue shield", "bcbs", "kaiser"]

/-- Python's `needle in hay` substring test. -/
def strContainsSub (hay needle : String) : Bool :=
  decide (needle.toList <:+: hay.toList)

/-- The fields of the insurance-verification result dictionary that this
embedding tracks. -/
structure InsuranceResult where
  success : Bool
  insurance_accepted : Bool
  insurance_provider : String
  patient_name : String
  member_id : Option String
  verification_status : String
deriving DecidableEq

/-- `verify_insurance_coverage`: lowercase and strip the provider name,
accept iff any accepted-insurer substring occurs in it, and return the
corresponding dictionary — `success` is `True` on both branches. -/
def verify_insurance_coverage (insurance_provider patient_name : String)
    (member_id : Option String) : InsuranceResult :=
  let provider_lower := insurance_provider.toLower.trim
  let is_accepted := accepted_insurers.any fun accepted =>
    strContainsSub provider_lower accepted
  if is_accepted then
    { success := true
      insurance_accepted := true
      insurance_provider := insurance_provider
      patient_name := patient_name
      member_id := member_id
      verification_status := "Coverage verified - insurance accepted" }
  else
    { success := true
      insurance_accepted := false
      insurance_provider := insurance_provider
      patient_name := patient_name
      member_id := member_id
      verification_status := "Insurance not accepted" }

theorem retryAux_attempts_le (cfg : RetryCfg) (resp : Nat → HttpResp α) (m : Nat) :
    ∀ fuel attempt, (retryAux cfg resp m attempt fuel).attempts ≤ fuel := by
  intro fuel
  induction fuel with
  | zero => intro attempt; simp [retryAux]
  | succ n ih =>
    intro attempt
    simp only [retryAux]
    cases hr : resp attempt with
    | ok d => simp
    | httpError s detail =>
      by_cases hs : s = 429
      · simp only [hs, if_pos rfl]
        exact Nat.succ_le_succ (ih (attempt + 1))
      · simp [hs]
    | connError e =>
      by_cases hl : attempt = m - 1
      · simp [hl]
      · simp only [hl, if_neg hl]
        exact Nat.succ_le_succ (ih (attempt + 1))

theorem retryAux_attempts_pos (cfg : RetryCfg) (resp : Nat → HttpResp α) (m : Nat)
    (fuel attempt : Nat) (h : 1 ≤ fuel) :
    1 ≤ (retryAux cfg resp m attempt fuel).attempts := by
  obtain ⟨f, rfl⟩ : ∃ f, fuel = f + 1 := ⟨fuel - 1, by omega⟩
  simp only [retryAux]
  cases hr : resp attempt with
  | ok d => simp
  | httpError s detail =>
    by_cases hs : s = 429
    · simp [hs]
    · simp [hs]
  | connError e =>
    by_cases hl : attempt = m - 1
    · simp [hl]
    · simp [hl]

theorem retryAux_ok {resp : Nat → HttpResp α} {attempt : Nat} {d : α}
    (cfg : RetryCfg) (m fuel : Nat) (h : resp attempt = .ok d) :
    retryAux cfg resp m attempt (fuel + 1) = ⟨.success d, 1, []⟩ := by
  simp [retryAux, h]

theorem retryAux_429 {resp : Nat → HttpResp α} {attempt : Nat} {detail : String}
    (cfg : RetryCfg) (m fuel : Nat) (h : resp attempt = .httpError 429 detail) :
    retryAux cfg resp m attempt (fuel + 1) =
      ⟨(retryAux cfg resp m (attempt + 1) fuel).result,
       (retryAux cfg resp m (attempt + 1) fuel).attempts + 1,
       2 ^ attempt :: (retryAux cfg resp m (attempt + 1) fuel).sleeps⟩ := by
  simp [retryAux, h]

theorem retryAux_http {resp : Nat → HttpResp α} {attempt s : Nat} {detail : String}
    (cfg : RetryCfg) (m fuel : Nat) (h : resp attempt = .httpError s detail)
    (hs : s ≠ 429) :
    retryAux cfg resp m attempt (fuel + 1) =
      ⟨.domainError cfg.exc (cfg.httpMsg s detail), 1, []⟩ := by
  simp [retryAux, h, hs]

theorem retryAux_conn {resp : Nat → HttpResp α} {attempt : Nat} {e : String}
    (cfg : RetryCfg) (m fuel : Nat) (h : resp attempt = .connError e)
    (hl : attempt ≠ m - 1) :
    retryAux cfg resp m attempt (fuel + 1) =
      ⟨(retryAux cfg resp m (attempt + 1) fuel).result,
       (retryAux cfg resp m (attempt + 1) fuel).attempts + 1,
       (attempt + 1) :: (retryAux cfg resp m (attempt + 1) fuel).sleeps⟩ := by
  simp [retryAux, h, hl]

theorem retryAux_conn_last {resp : Nat → HttpResp α} {attempt : Nat} {e : String}
    (cfg : RetryCfg) (m fuel : Nat) (h : resp attempt = .connError e)
    (hl : attempt = m - 1) :
    retryAux cfg resp m attempt (fuel + 1) =
      ⟨.domainError cfg.exc (cfg.connMsg e), 1, []⟩ := by
  subst hl
  simp [retryAux, h]

theorem retryAux_skip (cfg : RetryCfg) (resp : Nat → HttpResp α) (m : Nat) :
    ∀ i attempt fuel, i ≤ fuel →
      (∀ j, attempt ≤ j → j < attempt + i → retryContinues m (resp j) j = true) →
      retryAux cfg resp m attempt fuel =
        { result := (retryAux cfg resp m (attempt + i) (fuel - i)).result
          attempts := (retryAux cfg resp m (attempt + i) (fuel - i)).attempts + i
          sleeps := (List.range' attempt i).map (sleepOf resp)
                      ++ (retryAux cfg resp m (attempt + i) (fuel - i)).sleeps } := by
  intro i
  induction i with
  | zero =>
    intro attempt fuel _ _
    simp
  | succ n ih =>
    intro attempt fuel hle hcont
    obtain ⟨fuel', rfl⟩ : ∃ f, fuel = f + 1 := ⟨fuel - 1, by omega⟩
    have hc0 : retryContinues m (resp attempt) attempt = true :=
      hcont attempt le_rfl (by omega)
    have hrec := ih (attempt + 1) fuel' (by omega)
      (fun j h1 h2 => hcont j (by omega) (by omega))
    have hidx : attempt + 1 + n = attempt + (n + 1) := by omega
    have hfuel : fuel' - n = fuel' + 1 - (n + 1) := by omega
    rw [hidx, hfuel] at hrec
    rw [List.range'_succ]
    cases hr : resp attempt with
    | ok d =>
      rw [hr] at hc0
      simp [retryContinues, HttpResp.is429, HttpResp.isConnErr] at hc0
    | httpError s detail =>
      rw [hr] at hc0
      have hs : s = 429 := by
        simpa [retryContinues, HttpResp.is429, HttpResp.isConnErr] using hc0
      subst hs
      have hsleep : sleepOf resp attempt = 2 ^ attempt := by
        simp [sleepOf, hr, HttpResp.is429]
      rw [retryAux_429 cfg m fuel' hr, hrec]
      simp only [RetryTrace.mk.injEq, hsleep, List.map_cons, List.cons_append]
      refine ⟨by trivial, by omega, by trivial⟩
    | connError e =>
      rw [hr] at hc0
      have hl : attempt ≠ m - 1 := by
        simpa [retryContinues, HttpResp.is429, HttpResp.isConnErr] using hc0
      have hsleep : sleepOf resp attempt = attempt + 1 := by
        simp [sleepOf, hr, HttpResp.is429]
      rw [retryAux_conn cfg m fuel' hr hl, hrec]
      simp only [RetryTrace.mk.injEq, hsleep, List.map_cons, List.cons_append]
      refine ⟨by trivial, by omega, by trivial⟩

theorem retryLoop_attempts_le (cfg : RetryCfg) (m : Nat) (resp : Nat → HttpResp α) :
    (retryLoop cfg m resp).attempts ≤ m :=
  retryAux_attempts_le cfg resp m m 0

theorem retryLoop_exhaust (cfg : RetryCfg) (m : Nat) (resp : Nat → HttpResp α)
    (h : ∀ i, i < m → (resp i).is429 = true) :
    retryLoop cfg m resp =
      ⟨.domainError cfg.exc cfg.maxMsg, m, (List.range' 0 m).map (sleepOf resp)⟩ := by
  have hskip := retryAux_skip cfg resp m m 0 m le_rfl
    (fun j h1 h2 => by simp [retryContinues, h j (by omega)])
  rw [retryLoop, hskip]
  simp [retryAux]

theorem retryLoop_429_step (cfg : RetryCfg) (m : Nat) (resp : Nat → HttpResp α)
    (i : Nat) (detail : String) (him : i + 1 < m)
    (hpre : ∀ j, j < i → retryContinues m (resp j) j = true)
    (h429 : resp i = .httpError 429 detail) :
    (retryLoop cfg m resp).sleeps[i]? = some (2 ^ i) ∧
    i + 2 ≤ (retryLoop cfg m resp).attempts := by
  have hskip := retryAux_skip cfg resp m i 0 m (by omega)
    (fun j h1 h2 => hpre j (by omega))
  obtain ⟨k, hk⟩ : ∃ k, m - i = k + 1 := ⟨m - i - 1, by omega⟩
  have hk1 : 1 ≤ k := by omega
  rw [retryLoop]
  simp only [Nat.zero_add] at hskip
  rw [hskip, hk, retryAux_429 cfg m k h429]
  constructor
  · rw [List.getElem?_append_right (by simp)]
    simp
  · have hpos := retryAux_attempts_pos cfg resp m k (i + 1) hk1
    simp only []
    omega

theorem retryLoop_conn_step (cfg : RetryCfg) (m : Nat) (resp : Nat → HttpResp α)
    (i : Nat) (e : String) (him : i < m)
    (hpre : ∀ j, j < i → retryContinues m (resp j) j = true)
    (hc : resp i = .connError e) :
    (i ≠ m - 1 →
      (retryLoop cfg m resp).sleeps[i]? = some (i + 1) ∧
      i + 2 ≤ (retryLoop cfg m resp).attempts) ∧
    (i = m - 1 →
      (retryLoop cfg m resp).result = .domainError cfg.exc (cfg.connMsg e) ∧
      (retryLoop cfg m resp).attempts = i + 1) := by
  have hskip := retryAux_skip cfg resp m i 0 m (by omega)
    (fun j h1 h2 => hpre j (by omega))
  obtain ⟨k, hk⟩ : ∃ k, m - i = k + 1 := ⟨m - i - 1, by omega⟩
  simp only [Nat.zero_add] at hskip
  constructor
  · intro hne
    have hk1 : 1 ≤ k := by omega
    rw [retryLoop]
    rw [hskip, hk, retryAux_conn cfg m k hc hne]
    constructor
    · rw [List.getElem?_append_right (by simp)]
      simp
    · have hpos := retryAux_attempts_pos cfg resp m k (i + 1) hk1
      simp only []
      omega
  · intro hlast
    have hk0 : k = 0 := by omega
    rw [retryLoop]
    rw [hskip, hk, hk0, retryAux_conn_last cfg m 0 hc hlast]
    exact ⟨rfl, by simp [Nat.add_comm]⟩

theorem retryLoop_http_stop (cfg : RetryCfg) (m : Nat) (resp : Nat → HttpResp α)
    (i s : Nat) (detail : String) (him : i < m)
    (hpre : ∀ j, j < i → retryContinues m (resp j) j = true)
    (hs : resp i = .httpError s detail) (hne : s ≠ 429) :
    (retryLoop cfg m resp).result = .domainError cfg.exc (cfg.httpMsg s detail) ∧
    (retryLoop cfg m resp).attempts = i + 1 := by
  have hskip := retryAux_skip cfg resp m i 0 m (by omega)
    (fun j h1 h2 => hpre j (by omega))
  obtain ⟨k, hk⟩ : ∃ k, m - i = k + 1 := ⟨m - i - 1, by omega⟩
  simp only [Nat.zero_add] at hskip
  rw [retryLoop, hskip, hk, retryAux_http cfg m k hs hne]
  exact ⟨rfl, by simp [Nat.add_comm]⟩

theorem get_access_token_attempts (resp : Nat → HttpResp (Option String)) :
    (get_access_token resp).attempts =
      (retryLoop getAccessTokenCfg PRACTICE_FUSION_MAX_RETRIES resp).attempts := rfl

theorem get_access_token_sleeps (resp : Nat → HttpResp (Option String)) :
    (get_access_token resp).sleeps =
      (retryLoop getAccessTokenCfg PRACTICE_FUSION_MAX_RETRIES resp).sleeps := rfl

theorem get_access_token_result_err {resp : Nat → HttpResp (Option String)}
    {k : ExcKind} {msg : String}
    (h : (retryLoop getAccessTokenCfg PRACTICE_FUSION_MAX_RETRIES resp).result =
      .domainError k msg) :
    (get_access_token resp).result = .domainError k msg := by
  simp [get_access_token, h]

/-- C4: every HTTP client method (NPPES search, token refresh, patient
creation, users fetch, facilities fetch, calendar query, appointment
creation) makes at most `max_retries = 3` HTTP attempts, and when the
retry loop exhausts all attempts (all attempts rate-limited) the method
terminates by raising its domain exception — `ProviderVerificationError`
for the NPPES client and `PracticeFusionError` for the Practice Fusion
client, with the method's `Max retries exceeded` message — rather than
looping further. -/
theorem retry_attempt_bound (α : Type) (resp : Nat → HttpResp α)
    (respTok : Nat → HttpResp (Option String)) :
    ((search_providers resp).attempts ≤ NPPES_MAX_RETRIES ∧
     (get_access_token respTok).attempts ≤ PRACTICE_FUSION_MAX_RETRIES ∧
     (create_patient resp).attempts ≤ PRACTICE_FUSION_MAX_RETRIES ∧
     (get_users resp).attempts ≤ PRACTICE_FUSION_MAX_RETRIES ∧
     (get_facilities resp).attempts ≤ PRACTICE_FUSION_MAX_RETRIES ∧
     (check_calendar_availability resp).attempts ≤ PRACTICE_FUSION_MAX_RETRIES ∧
     (create_appointment resp).attempts ≤ PRACTICE_FUSION_MAX_RETRIES) ∧
    ((∀ i, i < 3 → (resp i).is429 = true) →
      ((search_providers resp).result =
          .domainError .providerVerification "Max retries exceeded" ∧
        (search_providers resp).attempts = 3) ∧
      ((create_patient resp).result =
          .domainError .practiceFusion "Max retries exceeded for patient creation" ∧
        (create_patient resp).attempts = 3) ∧
      ((get_users resp).result =
          .domainError .practiceFusion "Max retries exceeded for users fetch" ∧
        (get_users resp).attempts = 3) ∧
      ((get_facilities resp).result =
          .domainError .practiceFusion "Max retries exceeded for facilities fetch" ∧
        (get_facilities resp).attempts = 3) ∧
      ((check_calendar_availability resp).result =
          .domainError .practiceFusion "Max retries exceeded for calendar query" ∧
        (check_calendar_availability resp).attempts = 3) ∧
      ((create_appointment resp).result =
          .domainError .practiceFusion "Max retries exceeded for appointment creation" ∧
        (create_appointment resp).attempts = 3)) ∧
    ((∀ i, i < 3 → (respTok i).is429 = true) →
      (get_access_token respTok).result =
        .domainError .practiceFusion "Max retries exceeded for token refresh" ∧
      (get_access_token respTok).attempts = 3) := by
  refine ⟨⟨?_, ?_, ?_, ?_, ?_, ?_, ?_⟩, ?_, ?_⟩
  · exact retryLoop_attempts_le _ _ _
  · rw [get_access_token_attempts]
    exact retryLoop_attempts_le _ _ _
  · exact retryLoop_attempts_le _ _ _
  · exact retryLoop_attempts_le _ _ _
  · exact retryLoop_attempts_le _ _ _
  · exact retryLoop_attempts_le _ _ _
  · exact retryLoop_attempts_le _ _ _
  · intro h
    refine ⟨?_, ?_, ?_, ?_, ?_, ?_⟩ <;>
      simp [search_providers, create_patient, get_users, get_facilities,
        check_calendar_availability, create_appointment,
        retryLoop_exhaust _ _ _ h, searchProvidersCfg, createPatientCfg,
        getUsersCfg, getFacilitiesCfg, checkCalendarCfg, createAppointmentCfg,
        NPPES_MAX_RETRIES, PRACTICE_FUSION_MAX_RETRIES]
  · intro h
    have he := retryLoop_exhaust getAccessTokenCfg PRACTICE_FUSION_MAX_RETRIES respTok h
    constructor
    · exact get_access_token_result_err (by rw [he]; rfl)
    · rw [get_access_token_attempts, he]
      rfl

theorem retry_attempt_bound_witness :
    ((search_providers (fun _ => HttpResp.httpError (α := Unit) 429 "")).result =
        .domainError .providerVerification "Max retries exceeded" ∧
      (search_providers (fun _ => HttpResp.httpError (α := Unit) 429 "")).attempts = 3) ∧
    ((get_access_token (fun _ => HttpResp.httpError 429 "")).result =
        .domainError .practiceFusion "Max retries exceeded for token refresh" ∧
      (get_access_token (fun _ => HttpResp.httpError 429 "")).attempts = 3) := by
  have h := retry_attempt_bound Unit (fun _ => .httpError 429 "")
    (fun _ => .httpError 429 "")
  exact ⟨(h.2.1 (fun i _ => rfl)).1, h.2.2 (fun i _ => rfl)⟩

/-- C5: in every HTTP client method, a 429 (rate-limit) response on
attempt `i` while attempts remain (`i + 1 < 3`) makes the client sleep
exactly `2 ^ i` seconds (recorded as the `i`-th sleep of the trace) and
retry — a further HTTP attempt is made, so at least `i + 2` attempts
occur — instead of raising an exception.  The hypotheses `hpre`/`hpreTok`
say the loop actually reaches attempt `i` (every earlier attempt was
retried). -/
theorem rate_limit_backoff (α : Type) (resp : Nat → HttpResp α)
    (respTok : Nat → HttpResp (Option String)) (i : Nat)
    (detail detailTok : String) (him : i + 1 < 3)
    (hpre : ∀ j, j < i → retryContinues 3 (resp j) j = true)
    (hpreTok : ∀ j, j < i → retryContinues 3 (respTok j) j = true)
    (h429 : resp i = .httpError 429 detail)
    (h429Tok : respTok i = .httpError 429 detailTok) :
    ((search_providers resp).sleeps[i]? = some (2 ^ i) ∧
      i + 2 ≤ (search_providers resp).attempts) ∧
    ((get_access_token respTok).sleeps[i]? = some (2 ^ i) ∧
      i + 2 ≤ (get_access_token respTok).attempts) ∧
    ((create_patient resp).sleeps[i]? = some (2 ^ i) ∧
      i + 2 ≤ (create_patient resp).attempts) ∧
    ((get_users resp).sleeps[i]? = some (2 ^ i) ∧
      i + 2 ≤ (get_users resp).attempts) ∧
    ((get_facilities resp).sleeps[i]? = some (2 ^ i) ∧
      i + 2 ≤ (get_facilities resp).attempts) ∧
    ((check_calendar_availability resp).sleeps[i]? = some (2 ^ i) ∧
      i + 2 ≤ (check_calendar_availability resp).attempts) ∧
    ((create_appointment resp).sleeps[i]? = some (2 ^ i) ∧
      i + 2 ≤ (create_appointment resp).attempts) := by
  refine ⟨?_, ?_, ?_, ?_, ?_, ?_, ?_⟩
  · exact retryLoop_429_step _ 3 resp i detail him hpre h429
  · rw [get_access_token_sleeps, get_access_token_attempts]
    exact retryLoop_429_step _ 3 respTok i detailTok him hpreTok h429Tok
  · exact retryLoop_429_step _ 3 resp i detail him hpre h429
  · exact retryLoop_429_step _ 3 resp i detail him hpre h429
  · exact retryLoop_429_step _ 3 resp i detail him hpre h429
  · exact retryLoop_429_step _ 3 resp i detail him hpre h429
  · exact retryLoop_429_step _ 3 resp i detail him hpre h429

theorem rate_limit_backoff_witness :
    ((search_providers (fun _ => HttpResp.httpError (α := Unit) 429 "")).sleeps[1]? =
        some 2 ∧
      3 ≤ (search_providers (fun _ => HttpResp.httpError (α := Unit) 429 "")).attempts) ∧
    ((get_access_token (fun _ => HttpResp.httpError 429 "")).sleeps[1]? = some 2 ∧
      3 ≤ (get_access_token (fun _ => HttpResp.httpError 429 "")).attempts) := by
  have h := rate_limit_backoff Unit (fun _ => .httpError 429 "")
    (fun _ => .httpError 429 "") 1 "" "" (by decide)
    (fun j _ => rfl) (fun j _ => rfl) rfl rfl
  exact ⟨h.1, h.2.1⟩

/-- C6: in every HTTP client method, a connection-level request error on
attempt `i` that is not the last attempt (`i ≠ 2`) makes the client sleep
exactly `1 * (i + 1)` seconds (recorded as the `i`-th sleep) and retry,
while a connection error on the last attempt (`i = 2`) makes the method
raise the domain exception (`Unable to connect ...` message) after
exactly `i + 1` attempts. -/
theorem conn_error_backoff (α : Type) (resp : Nat → HttpResp α)
    (respTok : Nat → HttpResp (Option String)) (i : Nat) (e eTok : String)
    (him : i < 3)
    (hpre : ∀ j, j < i → retryContinues 3 (resp j) j = true)
    (hpreTok : ∀ j, j < i → retryContinues 3 (respTok j) j = true)
    (hc : resp i = .connError e) (hcTok : respTok i = .connError eTok) :
    (i ≠ 2 →
      ((search_providers resp).sleeps[i]? = some (i + 1) ∧
        i + 2 ≤ (search_providers resp).attempts) ∧
      ((get_access_token respTok).sleeps[i]? = some (i + 1) ∧
        i + 2 ≤ (get_access_token respTok).attempts) ∧
      ((create_patient resp).sleeps[i]? = some (i + 1) ∧
        i + 2 ≤ (create_patient resp).attempts) ∧
      ((get_users resp).sleeps[i]? = some (i + 1) ∧
        i + 2 ≤ (get_users resp).attempts) ∧
      ((get_facilities resp).sleeps[i]? = some (i + 1) ∧
        i + 2 ≤ (get_facilities resp).attempts) ∧
      ((check_calendar_availability resp).sleeps[i]? = some (i + 1) ∧
        i + 2 ≤ (check_calendar_availability resp).attempts) ∧
      ((create_appointment resp).sleeps[i]? = some (i + 1) ∧
        i + 2 ≤ (create_appointment resp).attempts)) ∧
    (i = 2 →
      ((search_providers resp).result =
          .domainError .providerVerification ("Unable to connect to NPPES API: " ++ e) ∧
        (search_providers resp).attempts = i + 1) ∧
      ((get_access_token respTok).result =
          .domainError .practiceFusion
            ("Unable to connect to Practice Fusion API: " ++ eTok) ∧
        (get_access_token respTok).attempts = i + 1) ∧
      ((create_patient resp).result =
          .domainError .practiceFusion
            ("Unable to connect to Practice Fusion API: " ++ e) ∧
        (create_patient resp).attempts = i + 1) ∧
      ((get_users resp).result =
          .domainError .practiceFusion
            ("Unable to connect to Practice Fusion API: " ++ e) ∧
        (get_users resp).attempts = i + 1) ∧
      ((get_facilities resp).result =
          .domainError .practiceFusion
            ("Unable to connect to Practice Fusion API: " ++ e) ∧
        (get_facilities resp).attempts = i + 1) ∧
      ((check_calendar_availability resp).result =
          .domainError .practiceFusion
            ("Unable to connect to Practice Fusion API: " ++ e) ∧
        (check_calendar_availability resp).attempts = i + 1) ∧
      ((create_appointment resp).result =
          .domainError .practiceFusion
            ("Unable to connect to Practice Fusion API: " ++ e) ∧
        (create_appointment resp).attempts = i + 1)) := by
  have hne2 : (3 : Nat) - 1 = 2 := rfl
  constructor
  · intro hni
    have hni' : i ≠ 3 - 1 := by omega
    refine ⟨?_, ?_, ?_, ?_, ?_, ?_, ?_⟩
    · exact (retryLoop_conn_step _ 3 resp i e him hpre hc).1 hni'
    · rw [get_access_token_sleeps, get_access_token_attempts]
      exact (retryLoop_conn_step _ 3 respTok i eTok him hpreTok hcTok).1 hni'
    · exact (retryLoop_conn_step _ 3 resp i e him hpre hc).1 hni'
    · exact (retryLoop_conn_step _ 3 resp i e him hpre hc).1 hni'
    · exact (retryLoop_conn_step _ 3 resp i e him hpre hc).1 hni'
    · exact (retryLoop_conn_step _ 3 resp i e him hpre hc).1 hni'
    · exact (retryLoop_conn_step _ 3 resp i e him hpre hc).1 hni'
  · intro hi
    have hi' : i = 3 - 1 := by omega
    refine ⟨?_, ?_, ?_, ?_, ?_, ?_, ?_⟩
    · exact (retryLoop_conn_step _ 3 resp i e him hpre hc).2 hi'
    · have h := (retryLoop_conn_step getAccessTokenCfg 3 respTok i eTok him
        hpreTok hcTok).2 hi'
      exact ⟨get_access_token_result_err h.1, by
        rw [get_access_token_attempts]; exact h.2⟩
    · exact (retryLoop_conn_step _ 3 resp i e him hpre hc).2 hi'
    · exact (retryLoop_conn_step _ 3 resp i e him hpre hc).2 hi'
    · exact (retryLoop_conn_step _ 3 resp i e him hpre hc).2 hi'
    · exact (retryLoop_conn_step _ 3 resp i e him hpre hc).2 hi'
    · exact (retryLoop_conn_step _ 3 resp i e him hpre hc).2 hi'

theorem conn_error_backoff_witness :
    ((search_providers (fun _ => HttpResp.connError (α := Unit) "boom")).sleeps[0]? =
        some 1 ∧
      2 ≤ (search_providers (fun _ => HttpResp.connError (α := Unit) "boom")).attempts) ∧
    ((search_providers (fun j => if j < 2 then HttpResp.connError (α := Unit) "x"
        else HttpResp.connError "boom")).result =
      .domainError .providerVerification ("Unable to connect to NPPES API: " ++ "boom")) := by
  constructor
  · have h := conn_error_backoff Unit (fun _ => .connError "boom")
      (fun _ => .connError "boom") 0 "boom" "boom" (by decide)
      (fun j hj => absurd hj (by omega)) (fun j hj => absurd hj (by omega)) rfl rfl
    exact (h.1 (by decide)).1
  · have h := conn_error_backoff Unit
      (fun j => if j < 2 then .connError "x" else .connError "boom")
      (fun _ => .connError "boom") 2 "boom" "boom" (by decide)
      (fun j hj => by interval_cases j <;> rfl)
      (fun j hj => by
        simp [retryContinues, HttpResp.isConnErr, HttpResp.is429]
        omega) (by rfl) rfl
    exact ((h.2 rfl).1).1

/-- C7: in every HTTP client method, an HTTP error response whose status
is not 429, received on any attempt `i` the loop reaches, is never
retried: the method raises the domain exception immediately (carrying the
status code in its message) having made exactly `i + 1` attempts.  Only
429 responses and connection errors trigger a retry with backoff (those
are exactly the `retryContinues` cases of the loop). -/
theorem http_error_no_retry (α : Type) (resp : Nat → HttpResp α)
    (respTok : Nat → HttpResp (Option String)) (i s : Nat)
    (detail detailTok : String) (him : i < 3) (hne : s ≠ 429)
    (hpre : ∀ j, j < i → retryContinues 3 (resp j) j = true)
    (hpreTok : ∀ j, j < i → retryContinues 3 (respTok j) j = true)
    (hs : resp i = .httpError s detail)
    (hsTok : respTok i = .httpError s detailTok) :
    ((search_providers resp).result =
        .domainError .providerVerification ("NPPES API error: " ++ toString s) ∧
      (search_providers resp).attempts = i + 1) ∧
    ((get_access_token respTok).result =
        .domainError .practiceFusion ("Token API error: " ++ toString s) ∧
      (get_access_token respTok).attempts = i + 1) ∧
    ((create_patient resp).result =
        .domainError .practiceFusion ("Patient creation API error: " ++ toString s) ∧
      (create_patient resp).attempts = i + 1) ∧
    ((get_users resp).result =
        .domainError .practiceFusion ("Users API error: " ++ toString s) ∧
      (get_users resp).attempts = i + 1) ∧
    ((get_facilities resp).result =
        .domainError .practiceFusion ("Facilities API error: " ++ toString s) ∧
      (get_facilities resp).attempts = i + 1) ∧
    ((check_calendar_availability resp).result =
        .domainError .practiceFusion ("Calendar API error: " ++ toString s) ∧
      (check_calendar_availability resp).attempts = i + 1) ∧
    ((create_appointment resp).result =
        .domainError .practiceFusion
          ("Appointment creation API error: " ++ toString s ++ detail) ∧
      (create_appointment resp).attempts = i + 1) := by
  refine ⟨?_, ?_, ?_, ?_, ?_, ?_, ?_⟩
  · exact retryLoop_http_stop _ 3 resp i s detail him hpre hs hne
  · have h := retryLoop_http_stop getAccessTokenCfg 3 respTok i s detailTok
      him hpreTok hsTok hne
    exact ⟨get_access_token_result_err h.1, by
      rw [get_access_token_attempts]; exact h.2⟩
  · exact retryLoop_http_stop _ 3 resp i s detail him hpre hs hne
  · exact retryLoop_http_stop _ 3 resp i s detail him hpre hs hne
  · exact retryLoop_http_stop _ 3 resp i s detail him hpre hs hne
  · exact retryLoop_http_stop _ 3 resp i s detail him hpre hs hne
  · exact retryLoop_http_stop _ 3 resp i s detail him hpre hs hne

theorem http_error_no_retry_witness :
    ((search_providers (fun _ => HttpResp.httpError (α := Unit) 500 "d")).result =
        .domainError .providerVerification ("NPPES API error: " ++ toString 500) ∧
      (search_providers (fun _ => HttpResp.httpError (α := Unit) 500 "d")).attempts = 1) ∧
    ((create_appointment (fun _ => HttpResp.httpError (α := Unit) 500 "d")).result =
        .domainError .practiceFusion
          ("Appointment creation API error: " ++ toString 500 ++ "d") ∧
      (create_appointment (fun _ => HttpResp.httpError (α := Unit) 500 "d")).attempts = 1) := by
  have h := http_error_no_retry Unit (fun _ => .httpError 500 "d")
    (fun _ => .httpError 500 "d") 0 500 "d" "d" (by decide) (by decide)
    (fun j hj => absurd hj (by omega)) (fun j hj => absurd hj (by omega)) rfl rfl
  exact ⟨h.1, h.2.2.2.2.2.2⟩

theorem genSlots_mem (t : Nat) (s : Slot) :
    s ∈ genSlots t ↔
      t + 1 ≤ s.day ∧ s.day ≤ t + 14 ∧ s.day % 7 < 5 ∧
        9 ≤ s.hour ∧ s.hour ≤ 16 := by
  unfold genSlots
  rw [List.mem_flatMap]
  constructor
  · rintro ⟨da, hda, hs⟩
    rw [List.mem_range'_1] at hda
    split at hs
    · simp at hs
    · rw [List.mem_map] at hs
      obtain ⟨h, hh, rfl⟩ := hs
      rw [List.mem_range'_1] at hh
      dsimp only
      refine ⟨by omega, by omega, by omega, by omega, by omega⟩
  · rintro ⟨h1, h2, h3, h4, h5⟩
    refine ⟨s.day - t, ?_, ?_⟩
    · rw [List.mem_range'_1]
      omega
    · have hday : t + (s.day - t) = s.day := by omega
      rw [hday]
      rw [if_neg (by omega)]
      rw [List.mem_map]
      exact ⟨s.hour, by rw [List.mem_range'_1]; omega, rfl⟩

theorem genSlots_sorted (t : Nat) :
    (genSlots t).Pairwise fun a b => slotStartMin a < slotStartMin b := by
  unfold genSlots
  rw [List.pairwise_flatMap]
  constructor
  · intro da _
    split
    · simp
    · rw [List.pairwise_map]
      refine (List.pairwise_lt_range' 9 8).imp ?_
      intro a b hab
      simp only [slotStartMin]
      omega
  · refine (List.pairwise_lt_range' 1 14).imp ?_
    intro da1 da2 hlt x hx y hy
    have hx' : x.day = t + da1 ∧ x.hour ≤ 16 := by
      split at hx
      · simp at hx
      · rw [List.mem_map] at hx
        obtain ⟨h, hh, rfl⟩ := hx
        rw [List.mem_range'_1] at hh
        exact ⟨rfl, by dsimp only; omega⟩
    have hy' : y.day = t + da2 ∧ 9 ≤ y.hour := by
      split at hy
      · simp at hy
      · rw [List.mem_map] at hy
        obtain ⟨h, hh, rfl⟩ := hy
        rw [List.mem_range'_1] at hh
        exact ⟨rfl, by dsimp only; omega⟩
    simp only [slotStartMin]
    obtain ⟨hxd, hxh⟩ := hx'
    obtain ⟨hyd, hyh⟩ := hy'
    rw [hxd, hyd]
    have : t + da1 + 1 ≤ t + da2 := by omega
    nlinarith [hxh, hyh, this]

theorem findSlot_eq_some {query : Slot → Option (List CalEvent)} :
    ∀ {l : List Slot} {s : Slot}, findSlot query l = .ok (some s) →
      ∃ pre suf, l = pre ++ s :: suf ∧ (∀ x ∈ pre, ¬passes query x) ∧
        passes query s := by
  intro l
  induction l with
  | nil => intro s h; simp [findSlot] at h
  | cons a rest ih =>
    intro s h
    cases hq : query a with
    | none =>
      simp only [findSlot, hq] at h
      obtain ⟨pre, suf, rfl, hpre, hs⟩ := ih h
      refine ⟨a :: pre, suf, rfl, ?_, hs⟩
      intro x hx
      rcases List.mem_cons.mp hx with rfl | hx'
      · rintro ⟨evs, he, _⟩
        rw [hq] at he
        exact Option.noConfusion he
      · exact hpre x hx'
    | some evs =>
      cases hc : slotConflicts (slotStartUtcMin a) evs with
      | none =>
        simp only [findSlot, hq, hc] at h
        exact Except.noConfusion h
      | some b =>
        cases b with
        | false =>
          simp only [findSlot, hq, hc] at h
          obtain rfl : a = s := by
            injection h with h'
            exact Option.some.inj h'
          exact ⟨[], rest, rfl, by simp, ⟨evs, hq, hc⟩⟩
        | true =>
          simp only [findSlot, hq, hc] at h
          obtain ⟨pre, suf, rfl, hpre, hs⟩ := ih h
          refine ⟨a :: pre, suf, rfl, ?_, hs⟩
          intro x hx
          rcases List.mem_cons.mp hx with rfl | hx'
          · rintro ⟨evs', he, hcf⟩
            rw [hq] at he
            obtain rfl : evs = evs' := Option.some.inj he
            rw [hc] at hcf
            exact Bool.noConfusion (Option.some.inj hcf)
          · exact hpre x hx'

theorem sched_async_success_inv {query : Slot → Option (List CalEvent)}
    {create : Slot → Except String String} {t : Nat}
    {pn dob ph pg : String} {pd : Option String} {d : ApptDetails}
    (h : _schedule_appointment_async query create t pn dob ph pg pd = .success d) :
    findSlot query (genSlots t) = .ok (some d.slot) ∧ d.duration = "01:00:00" := by
  unfold _schedule_appointment_async at h
  split at h
  · exact absurd h (by simp)
  · unfold scheduleCore at h
    split at h
    · exact absurd h (by simp)
    · split at h
      · exact absurd h (by simp)
      · exact absurd h (by simp)
      · next s heq =>
        split at h
        · exact absurd h (by simp)
        · next eid hcr =>
          injection h with h'
          subst h'
          exact ⟨heq, rfl⟩

/-- C1: the scheduler examines its candidate slots sequentially in
chronological order (the candidate list is strictly increasing in start
time), and the slot it selects is the earliest candidate for which the
conflict check reports no overlap (any candidate passing the check starts
no earlier); if no candidate passes the check, `_schedule_appointment_async`
returns an unsuccessful result carrying an error message and no
appointment-creation success is possible. -/
theorem scheduler_selects_earliest (query : Slot → Option (List CalEvent))
    (create : Slot → Except String String) (t : Nat)
    (pn dob ph pg : String) (pd : Option String) :
    ((genSlots t).Pairwise fun a b => slotStartMin a < slotStartMin b) ∧
    (∀ d, _schedule_appointment_async query create t pn dob ph pg pd = .success d →
      d.slot ∈ genSlots t ∧ passes query d.slot ∧
        ∀ x ∈ genSlots t, passes query x → slotStartMin d.slot ≤ slotStartMin x) ∧
    ((∀ x ∈ genSlots t, ¬passes query x) →
      ∃ msg, _schedule_appointment_async query create t pn dob ph pg pd =
        .failure msg) := by
  refine ⟨genSlots_sorted t, ?_, ?_⟩
  · intro d hd
    obtain ⟨hf, _⟩ := sched_async_success_inv hd
    obtain ⟨pre, suf, heq, hpre, hs⟩ := findSlot_eq_some hf
    have hmem : d.slot ∈ genSlots t := by rw [heq]; simp
    refine ⟨hmem, hs, ?_⟩
    intro x hx hpx
    have hsorted := genSlots_sorted t
    rw [heq] at hsorted hx
    rcases List.mem_append.mp hx with hx1 | hx2
    · exact absurd hpx (hpre x hx1)
    · rcases List.mem_cons.mp hx2 with rfl | hx3
      · exact le_rfl
      · have hps := (List.pairwise_append.mp hsorted).2.1
        have hlt := (List.pairwise_cons.mp hps).1 x hx3
        omega
  · intro hall
    unfold _schedule_appointment_async
    split
    · exact ⟨_, rfl⟩
    · unfold scheduleCore
      split
      · exact ⟨_, rfl⟩
      · cases hf : findSlot query (genSlots t) with
        | error msg => exact ⟨msg, rfl⟩
        | ok o =>
          cases o with
          | none => exact ⟨_, rfl⟩
          | some s =>
            obtain ⟨pre, suf, heq, hpre, hs⟩ := findSlot_eq_some hf
            have hmem : s ∈ genSlots t := by rw [heq]; simp
            exact absurd hs (hall s hmem)

theorem scheduler_selects_earliest_witness :
    ∃ msg, _schedule_appointment_async (fun _ => none)
      (fun _ => Except.error "unreachable") 0 "Jane Doe" "01/01/1990"
      "555-0100" "guid-1" none = .failure msg := by
  have h := scheduler_selects_earliest (fun _ => none)
    (fun _ => Except.error "unreachable") 0 "Jane Doe" "01/01/1990"
    "555-0100" "guid-1" none
  refine h.2.2 ?_
  rintro x hx ⟨evs, he, _⟩
  exact Option.noConfusion he

theorem slotConflicts_char (slotStart : Int) :
    ∀ events : List CalEvent,
      (∀ e ∈ events, e.isCancelled = false → (eventDurationMin e).isSome) →
      (slotConflicts slotStart events).isSome ∧
      (slotConflicts slotStart events = some true ↔
        ∃ e ∈ events, e.isCancelled = false ∧
          slotStart < e.startDateTimeUtc + ((eventDurationMin e).getD 60 : Int) ∧
          slotStart + 60 > e.startDateTimeUtc) := by
  intro events
  induction events with
  | nil =>
    intro _
    refine ⟨by simp [slotConflicts], ?_⟩
    simp [slotConflicts]
  | cons e rest ih =>
    intro hparse
    have ihr := ih (fun x hx => hparse x (List.mem_cons_of_mem e hx))
    by_cases hc : e.isCancelled
    · have hstep : slotConflicts slotStart (e :: rest) =
        slotConflicts slotStart rest := by
        simp [slotConflicts, hc]
      rw [hstep]
      refine ⟨ihr.1, ?_⟩
      rw [ihr.2]
      constructor
      · rintro ⟨x, hx, hrest⟩
        exact ⟨x, List.mem_cons_of_mem e hx, hrest⟩
      · rintro ⟨x, hx, hnc, hov⟩
        rcases List.mem_cons.mp hx with rfl | hx'
        · rw [hc] at hnc
          exact Bool.noConfusion hnc
        · exact ⟨x, hx', hnc, hov⟩
    · have hnc : e.isCancelled = false := Bool.of_not_eq_true hc
      obtain ⟨d, hd⟩ := Option.isSome_iff_exists.mp
        (hparse e (List.mem_cons_self e rest) hnc)
      by_cases hov : slotStart < e.startDateTimeUtc + (d : Int) ∧
          slotStart + 60 > e.startDateTimeUtc
      · have hstep : slotConflicts slotStart (e :: rest) = some true := by
          simp only [slotConflicts, hnc, Bool.false_eq_true, if_false, hd]
          rw [if_pos hov]
        rw [hstep]
        refine ⟨by simp, ?_⟩
        simp only [true_iff]
        refine ⟨e, List.mem_cons_self e rest, hnc, ?_⟩
        rw [hd]
        exact hov
      · have hstep : slotConflicts slotStart (e :: rest) =
            slotConflicts slotStart rest := by
          simp only [slotConflicts, hnc, Bool.false_eq_true, if_false, hd]
          rw [if_neg hov]
        rw [hstep]
        refine ⟨ihr.1, ?_⟩
        rw [ihr.2]
        constructor
        · rintro ⟨x, hx, hrest⟩
          exact ⟨x, List.mem_cons_of_mem e hx, hrest⟩
        · rintro ⟨x, hx, hncx, hovx⟩
          rcases List.mem_cons.mp hx with rfl | hx'
          · rw [hd] at hovx
            exact absurd hovx hov
          · exact ⟨x, hx', hncx, hovx⟩

theorem eventDurationMin_default (e : CalEvent) (h : e.duration = none) :
    eventDurationMin e = some 60 := by
  rw [eventDurationMin, h]
  rfl

/-- C2: given the list of events returned by the calendar query (each
non-cancelled event carrying a parseable duration), the scheduler marks a
slot as conflicting exactly when some non-cancelled event overlaps the
slot's one-hour interval — `slot_start < event_start + duration` and
`slot_start + 1h > event_start` — with the duration parsed from the
event's `"HH:MM:SS"` string and defaulting to one hour (60 minutes) when
the `duration` field is absent; under the same hypothesis the conflict
loop never raises. -/
theorem conflict_check_characterization (slotStart : Int)
    (events : List CalEvent)
    (hparse : ∀ e ∈ events, e.isCancelled = false → (eventDurationMin e).isSome) :
    (slotConflicts slotStart events).isSome ∧
    (slotConflicts slotStart events = some true ↔
      ∃ e ∈ events, e.isCancelled = false ∧
        slotStart < e.startDateTimeUtc + ((eventDurationMin e).getD 60 : Int) ∧
        slotStart + 60 > e.startDateTimeUtc) ∧
    (∀ e : CalEvent, e.duration = none → eventDurationMin e = some 60) := by
  obtain ⟨h1, h2⟩ := slotConflicts_char slotStart events hparse
  exact ⟨h1, h2, eventDurationMin_default⟩

theorem conflict_check_witness :
    slotConflicts 150 [CalEvent.mk 100 false (some "01:30:00")] = some true ∧
    slotConflicts 300 [CalEvent.mk 100 false (some "01:30:00")] = some false := by
  constructor
  · have h := conflict_check_characterization 150
      [CalEvent.mk 100 false (some "01:30:00")]
      (by intro e he _; rw [List.mem_singleton] at he; subst he; decide)
    refine h.2.1.mpr ⟨CalEvent.mk 100 false (some "01:30:00"), by simp, rfl,
      by decide, by decide⟩
  · have h := conflict_check_characterization 300
      [CalEvent.mk 100 false (some "01:30:00")]
      (by intro e he _; rw [List.mem_singleton] at he; subst he; decide)
    have hns := h.1
    have hnt : ¬(slotConflicts 300 [CalEvent.mk 100 false (some "01:30:00")] =
        some true) := by
      rw [h.2.1]
      rintro ⟨e, he, hnc, hov1, hov2⟩
      rw [List.mem_singleton] at he
      subst he
      revert hov1
      decide
    cases hsc : slotConflicts 300 [CalEvent.mk 100 false (some "01:30:00")] with
    | none => rw [hsc] at hns; exact absurd hns (by simp)
    | some b =>
      cases b with
      | false => rfl
      | true => exact absurd hsc hnt

/-- C3: a slot is generated by the scheduler's nested day/hour loop
exactly when its day is a non-weekend day (weekday < 5, Monday = 0)
between 1 and 14 days after the current date and its Eastern hour is
between 9 AM and 4 PM inclusive (`range(9, 17)`); every generated slot
starts exactly on the hour, and any successfully created appointment has
the fixed one-hour duration `"01:00:00"`. -/
theorem candidate_slot_characterization (t : Nat) :
    (∀ s : Slot, s ∈ genSlots t ↔
      t + 1 ≤ s.day ∧ s.day ≤ t + 14 ∧ s.day % 7 < 5 ∧
        9 ≤ s.hour ∧ s.hour ≤ 16) ∧
    (∀ s ∈ genSlots t, slotStartMin s % 60 = 0) ∧
    (∀ (query : Slot → Option (List CalEvent))
        (create : Slot → Except String String)
        (pn dob ph pg : String) (pd : Option String) (d : ApptDetails),
      _schedule_appointment_async query create t pn dob ph pg pd = .success d →
      d.slot ∈ genSlots t ∧ d.duration = "01:00:00") := by
  refine ⟨genSlots_mem t, ?_, ?_⟩
  · intro s _
    simp [slotStartMin, Nat.add_mul_mod_self_left, Nat.mul_mod_left]
    omega
  · intro query create pn dob ph pg pd d hd
    obtain ⟨hf, hdur⟩ := sched_async_success_inv hd
    obtain ⟨pre, suf, heq, _, _⟩ := findSlot_eq_some hf
    exact ⟨by rw [heq]; simp, hdur⟩

theorem candidate_slot_witness :
    Slot.mk 1 9 ∈ genSlots 0 ∧ Slot.mk 5 9 ∉ genSlots 0 ∧
    slotStartMin (Slot.mk 1 9) % 60 = 0 := by
  have h := candidate_slot_characterization 0
  refine ⟨(h.1 (Slot.mk 1 9)).mpr (by decide), ?_, ?_⟩
  · intro hmem
    have := (h.1 (Slot.mk 5 9)).mp hmem
    revert this
    decide
  · exact h.2.1 (Slot.mk 1 9) ((h.1 (Slot.mk 1 9)).mpr (by decide))

/-- C8: the scheduler ignores `preferred_date`: two invocations of
`_schedule_appointment_async` (and of the `schedule_appointment` tool)
differing only in `preferred_date` have identical outcomes — the same
candidate slots, selection and returned result. -/
theorem preferred_date_noninterference (query : Slot → Option (List CalEvent))
    (create : Slot → Except String String) (t : Nat)
    (pn dob ph pg : String) (mrn pd1 pd2 : Option String) :
    _schedule_appointment_async query create t pn dob ph pg pd1 =
      _schedule_appointment_async query create t pn dob ph pg pd2 ∧
    schedule_appointment query create t pn dob ph pg pd1 mrn =
      schedule_appointment query create t pn dob ph pg pd2 mrn :=
  ⟨rfl, rfl⟩

/-- C9: `_verify_provider_async` is total over its error cases — it
always returns a result dictionary (success or failure), never
propagating an exception; empty `first_name` or `last_name` yields the
`success = False` validation message with no network request made; a
`ProviderVerificationError` raised during the lookup becomes a
`success = False` dictionary carrying the error string, and any other
exception becomes the generic `success = False` message. -/
theorem verify_provider_total_error_handling (search : SearchOutcome)
    (first_name last_name : String) (npi : Option String) :
    ((∃ c p, (_verify_provider_async search first_name last_name npi).1 =
        .ok c p) ∨
      (∃ e, (_verify_provider_async search first_name last_name npi).1 =
        .failure e)) ∧
    (first_name = "" ∨ last_name = "" →
      _verify_provider_async search first_name last_name npi =
        (.failure "Both first name and last name are required", false)) ∧
    (∀ e, first_name ≠ "" → last_name ≠ "" → search = .pvError e →
      _verify_provider_async search first_name last_name npi =
        (.failure e, true)) ∧
    (∀ m, first_name ≠ "" → last_name ≠ "" → search = .otherException m →
      _verify_provider_async search first_name last_name npi =
        (.failure "An unexpected error occurred during provider verification",
          true)) := by
  refine ⟨?_, ?_, ?_, ?_⟩
  · unfold _verify_provider_async
    split
    · exact Or.inr ⟨_, rfl⟩
    · cases search with
      | ok data => exact Or.inl ⟨_, _, rfl⟩
      | pvError e => exact Or.inr ⟨_, rfl⟩
      | otherException m => exact Or.inr ⟨_, rfl⟩
  · intro h
    unfold _verify_provider_async
    rw [if_pos h]
  · intro e h1 h2 hs
    unfold _verify_provider_async
    rw [if_neg (by tauto), hs]
  · intro m h1 h2 hs
    unfold _verify_provider_async
    rw [if_neg (by tauto), hs]

theorem verify_provider_witness :
    _verify_provider_async (SearchOutcome.pvError "NPPES API error: 500")
        "" "Smith" none =
      (.failure "Both first name and last name are required", false) ∧
    _verify_provider_async (SearchOutcome.pvError "NPPES API error: 500")
        "Jane" "Smith" none =
      (.failure "NPPES API error: 500", true) ∧
    _verify_provider_async (SearchOutcome.otherException "boom")
        "Jane" "Smith" none =
      (.failure "An unexpected error occurred during provider verification",
        true) := by
  refine ⟨?_, ?_, ?_⟩
  · exact (verify_provider_total_error_handling
      (SearchOutcome.pvError "NPPES API error: 500") "" "Smith" none).2.1
      (Or.inl rfl)
  · exact (verify_provider_total_error_handling
      (SearchOutcome.pvError "NPPES API error: 500") "Jane" "Smith" none).2.2.1
      "NPPES API error: 500" (by decide) (by decide) rfl
  · exact (verify_provider_total_error_handling
      (SearchOutcome.otherException "boom") "Jane" "Smith" none).2.2.2
      "boom" (by decide) (by decide) rfl

/-- C10: `verify_insurance_coverage` always returns `success = True`, and
its `insurance_accepted` field is true exactly when the lowercased,
stripped `insurance_provider` string contains one of the seven fixed
accepted-insurer substrings; the function is pure (it is embedded with no
network oracle at all). -/
theorem insurance_acceptance_characterization
    (insurance_provider patient_name : String) (member_id : Option String) :
    (verify_insurance_coverage insurance_provider patient_name
      member_id).success = true ∧
    ((verify_insurance_coverage insurance_provider patient_name
        member_id).insurance_accepted = true ↔
      ∃ a ∈ accepted_insurers,
        a.toList <:+: (insurance_provider.toLower.trim).toList) := by
  unfold verify_insurance_coverage
  by_cases h : accepted_insurers.any fun accepted =>
    strContainsSub insurance_provider.toLower.trim accepted
  · rw [if_pos h]
    refine ⟨rfl, ?_⟩
    simp only [true_iff]
    rw [List.any_eq_true] at h
    obtain ⟨a, ha, hc⟩ := h
    rw [strContainsSub, decide_eq_true_eq] at hc
    exact ⟨a, ha, hc⟩
  · rw [if_neg h]
    refine ⟨rfl, ?_⟩
    simp only [Bool.false_eq_true, false_iff]
    rintro ⟨a, ha, hc⟩
    exact h (List.any_eq_true.mpr ⟨a, ha, by
      rw [strContainsSub, decide_eq_true_eq]; exact hc⟩)
